import Mathlib

/-!
Verification of the wake-word detection and voice-command session logic of the
aida room client, shallowly embedded from
src/room-client/src/voice/wake_word_detector.py,
src/room-client/src/voice/handler.py and src/room-client/voice_commands.py.
Strings are modelled as lists of characters, floating-point scores as
rationals.
-/

/-- Character data of a string literal, used to write concrete inputs. -/
def S (s : String) : List Char := s.data

/-- Python whitespace class (regex \s over ASCII). -/
def isWS (c : Char) : Bool :=
  c = ' ' || c = '\t' || c = '\n' || c = '\r' || c = '\x0b' || c = '\x0c'

/-- Python word-character class (regex \w over ASCII). -/
def isWordChar (c : Char) : Bool := c.isAlphanum || c = '_'

/-- Python str.lower, characterwise. -/
def pyLower (l : List Char) : List Char := l.map Char.toLower

/-- Python str.strip with no arguments: remove leading and trailing whitespace. -/
def pyStrip (l : List Char) : List Char :=
  ((l.dropWhile isWS).reverse.dropWhile isWS).reverse

/-- Helper of splitRuns: acc holds the current run, reversed. -/
def splitRunsAux (p : Char → Bool) : List Char → List Char → List (List Char)
  | [], acc => if acc = [] then [] else [acc.reverse]
  | c :: cs, acc =>
    if p c then splitRunsAux p cs (c :: acc)
    else if acc = [] then splitRunsAux p cs []
    else acc.reverse :: splitRunsAux p cs []

/-- Maximal runs of characters satisfying p, in order. -/
def splitRuns (p : Char → Bool) (l : List Char) : List (List Char) :=
  splitRunsAux p l []

/-- re.findall of \b\w+\b: the maximal word-character runs. -/
def tokens (l : List Char) : List (List Char) := splitRuns isWordChar l

/-- Python str.split with no arguments: split on whitespace runs. -/
def pySplit (l : List Char) : List (List Char) := splitRuns (fun c => !(isWS c)) l

/-- Python " ".join. -/
def joinSpaces (ws : List (List Char)) : List Char := List.intercalate [' '] ws

/-- Python str.find: index of the first occurrence of pat in hay, none if absent. -/
def findSub (hay pat : List Char) : Option Nat :=
  (List.range (hay.length + 1)).find? (fun i => pat.isPrefixOf (hay.drop i))

/-- Python lst[-m:] (for m = 0 Python returns the whole list). -/
def pyTailSlice (m : Nat) (l : List α) : List α :=
  if m = 0 then l else l.drop (l.length - m)

/-! ## difflib.SequenceMatcher, embedded

`SequenceMatcher(None, a, b).ratio()` for short strings (no junk, no
autojunk): the matching blocks are found by repeatedly taking the longest
matching block (smallest start in a, then in b, on ties) and recursing on
both sides; the ratio is 2*M/(|a|+|b|) where M is the total matched size. -/

/-- Length of the longest common prefix. -/
def commonPrefixLen : List Char → List Char → Nat
  | a :: as, b :: bs => if a = b then commonPrefixLen as bs + 1 else 0
  | _, _ => 0

/-- Longest matching block (i, j, k) of two strings: maximal k with
a[i:i+k] = b[j:j+k], with smallest i then smallest j on ties, as
difflib.find_longest_match computes with an empty junk set. -/
def longestMatch (a b : List Char) : Nat × Nat × Nat :=
  (List.range (a.length + 1)).foldl (fun best i =>
    (List.range (b.length + 1)).foldl (fun best j =>
      let k := commonPrefixLen (a.drop i) (b.drop j)
      if best.2.2 < k then (i, j, k) else best) best) (0, 0, 0)

/-- Total size of the matching blocks of difflib.get_matching_blocks.
The fuel argument only serves termination; a.length + b.length is enough. -/
def matchSum : Nat → List Char → List Char → Nat
  | 0, _, _ => 0
  | fuel+1, a, b =>
    match longestMatch a b with
    | (i, j, k) =>
      if k = 0 then 0
      else k + matchSum fuel (a.take i) (b.take j)
             + matchSum fuel (a.drop (i + k)) (b.drop (j + k))

/-- difflib.SequenceMatcher(None, a, b).ratio(), as a rational: 2*M divided
by the total length (mkRat builds the same rational as real division and
evaluates inside the kernel). -/
def similarityScore (a b : List Char) : ℚ :=
  if a.length + b.length = 0 then 1
  else mkRat (2 * (matchSum (a.length + b.length) a b : Int)) (a.length + b.length)

/-! ## WakeWordDetector (wake_word_detector.py) -/

/-- Detection strategy tag, the "method" string of the result dict. -/
inductive Method
  | exact
  | fuzzy
  | phonetic
  | multiword
deriving DecidableEq, Repr

/-- Result dict of WakeWordDetector.detect_wake_word. -/
structure DetectionResult where
  detected : Bool
  method : Option Method
  matched_word : Option (List Char)
  confidence : ℚ
  similarity_score : ℚ
deriving DecidableEq, Repr

/-- The live state of a WakeWordDetector: normalized variation set (modelled
as a list in iteration order), similarity threshold, phonetic flag and
precomputed Soundex codes. -/
structure WakeWordDetector where
  variations : List (List Char)
  similarity_threshold : ℚ
  phonetic_matching : Bool
  soundex_codes : List (List Char)
deriving DecidableEq, Repr

/-- WakeWordDetector._no_detection. -/
def no_detection : DetectionResult :=
  { detected := false, method := none, matched_word := none,
    confidence := 0, similarity_score := 0 }

/-- Consonant classes of WakeWordDetector._soundex. -/
def soundexMap (c : Char) : Option Char :=
  if c = 'b' || c = 'f' || c = 'p' || c = 'v' then some '1'
  else if c = 'c' || c = 'g' || c = 'j' || c = 'k' || c = 'q' || c = 's'
       || c = 'x' || c = 'z' then some '2'
  else if c = 'd' || c = 't' then some '3'
  else if c = 'l' then some '4'
  else if c = 'm' || c = 'n' then some '5'
  else if c = 'r' then some '6'
  else none

/-- WakeWordDetector._soundex: keep the first letter (uppercased), map the
remaining consonants to digits skipping vowels, drop a digit equal to the
current last character, pad with zeros and truncate to 4 characters. -/
def soundex (word0 : List Char) : List Char :=
  match pyLower word0 with
  | [] => S "0000"
  | c :: rest =>
    let res := rest.foldl (fun res ch =>
      match soundexMap ch with
      | some code => if res.getLast? = some code then res else res ++ [code]
      | none => res) [c.toUpper]
    (res ++ S "000").take 4

/-- Fixed fuzzy-matching blacklist of WakeWordDetector._fuzzy_match. -/
def common_words_blacklist : List (List Char) :=
  [S "important", S "department", S "compartment", S "treatment", S "argument",
   S "document", S "movement", S "moment", S "parent", S "apparent",
   S "statement", S "element", S "agreement", S "improvement", S "development",
   S "government"]

/-- Required minimum fuzzy similarity: raised to max(0.75, threshold) for
words longer than 6 characters. -/
def min_fuzzy_score (threshold : ℚ) (word : List Char) : ℚ :=
  if 6 < word.length then max (mkRat 3 4) threshold else threshold

/-- Inner loop of WakeWordDetector._fuzzy_match over one candidate variation. -/
def fuzzy_step (d : WakeWordDetector) (word : List Char)
    (best : ℚ × Option (List Char)) (variation : List Char) :
    ℚ × Option (List Char) :=
  if word.length < 4 ∨ variation.length < 4 then best
  else if word.head? ≠ variation.head? then best
  else
    let score := similarityScore word variation
    if best.1 < score ∧ min_fuzzy_score d.similarity_threshold word ≤ score then
      (score, some word)
    else best

/-- Outer loop of WakeWordDetector._fuzzy_match over one input word:
blacklisted words are skipped entirely. -/
def fuzzy_word (d : WakeWordDetector) (best : ℚ × Option (List Char))
    (word : List Char) : ℚ × Option (List Char) :=
  if pyLower word ∈ common_words_blacklist then best
  else d.variations.foldl (fuzzy_step d word) best

/-- WakeWordDetector._fuzzy_match. -/
def fuzzy_match (d : WakeWordDetector) (words : List (List Char)) :
    DetectionResult :=
  let best := words.foldl (fuzzy_word d) (0, none)
  if d.similarity_threshold ≤ best.1 then
    { detected := true, method := some Method.fuzzy, matched_word := best.2,
      confidence := best.1, similarity_score := best.1 }
  else no_detection

/-- WakeWordDetector._phonetic_match: first word of length at least 3 whose
Soundex code is among the precomputed codes; fixed confidence 0.8. -/
def phonetic_match (d : WakeWordDetector) (words : List (List Char)) :
    DetectionResult :=
  match words.find? (fun w => decide (3 ≤ w.length)
      && decide (soundex w ∈ d.soundex_codes)) with
  | some w =>
    { detected := true, method := some Method.phonetic, matched_word := some w,
      confidence := mkRat 4 5, similarity_score := mkRat 4 5 }
  | none => no_detection

/-- re.sub("[^\w\s]", " ", text) of WakeWordDetector._multiword_match. -/
def punctToSpace (l : List Char) : List Char :=
  l.map (fun c => if isWordChar c || isWS c then c else ' ')

/-- Helper of collapseWS: the flag records being inside a whitespace run. -/
def collapseWSAux : Bool → List Char → List Char
  | _, [] => []
  | inRun, c :: cs =>
    if isWS c then
      if inRun then collapseWSAux true cs else ' ' :: collapseWSAux true cs
    else c :: collapseWSAux false cs

/-- re.sub("\s+", " ", text): collapse every whitespace run to one space. -/
def collapseWS (l : List Char) : List Char := collapseWSAux false l

/-- The cleaned text of WakeWordDetector._multiword_match. -/
def cleanText (l : List Char) : List Char := pyStrip (collapseWS (punctToSpace l))

/-- WakeWordDetector._multiword_match: first variation containing a space
whose ratio against the cleaned text reaches the threshold. -/
def multiword_match (d : WakeWordDetector) (text : List Char) :
    DetectionResult :=
  let clean_text := cleanText text
  match d.variations.find? (fun v => decide (' ' ∈ v)
      && decide (d.similarity_threshold ≤ similarityScore clean_text v)) with
  | some v =>
    { detected := true, method := some Method.multiword, matched_word := some v,
      confidence := similarityScore clean_text v,
      similarity_score := similarityScore clean_text v }
  | none => no_detection

/-- WakeWordDetector.detect_wake_word: exact, then fuzzy, then phonetic (when
enabled), then multi-word; first hit wins. -/
def detect_wake_word (d : WakeWordDetector) (transcribed_text : List Char) :
    DetectionResult :=
  if transcribed_text = [] then no_detection
  else
    let text := pyStrip (pyLower transcribed_text)
    let words := tokens text
    match words.find? (fun w => decide (w ∈ d.variations)) with
    | some w =>
      { detected := true, method := some Method.exact, matched_word := some w,
        confidence := 1, similarity_score := 1 }
    | none =>
      let best_fuzzy := fuzzy_match d words
      if best_fuzzy.detected then best_fuzzy
      else
        let best_phonetic :=
          if d.phonetic_matching then phonetic_match d words else no_detection
        if best_phonetic.detected then best_phonetic
        else
          let mw := multiword_match d text
          if mw.detected then mw else no_detection

/-- Set-style insertion used to model Python set.add on the list model. -/
def setAdd (l : List (List Char)) (x : List Char) : List (List Char) :=
  if x ∈ l then l else l ++ [x]

/-- WakeWordDetector.add_variation: normalize, insert if new, and record the
Soundex code of the letters-only form when phonetic matching is on. -/
def add_variation (d : WakeWordDetector) (variation : List Char) :
    WakeWordDetector :=
  let clean_var := pyStrip (pyLower variation)
  if clean_var ≠ [] ∧ clean_var ∉ d.variations then
    let d1 := { d with variations := d.variations ++ [clean_var] }
    if d.phonetic_matching then
      let clean_word := clean_var.filter (fun c => 'a' ≤ c && c ≤ 'z')
      if clean_word ≠ [] then
        { d1 with soundex_codes := setAdd d.soundex_codes (soundex clean_word) }
      else d1
    else d1
  else d

/-! ## Command extraction (handler.py _extract_command_after_wake_word) -/

/-- re.sub("^(,|and then|then)\s*", "", t, IGNORECASE): remove one leading
comma or connective together with the whitespace that follows it. -/
def strip_connective (t : List Char) : List Char :=
  let low := pyLower t
  if [','].isPrefixOf low then (t.drop 1).dropWhile isWS
  else if (S "and then").isPrefixOf low then (t.drop 8).dropWhile isWS
  else if (S "then").isPrefixOf low then (t.drop 4).dropWhile isWS
  else t

/-- VoiceCommandHandler._extract_command_after_wake_word: substring after the
first case-insensitive occurrence of the matched phrase, stripped of one
leading comma/connective; token-level fallback when the phrase is absent. -/
def extract_command (d : WakeWordDetector) (full_text matched_wake_word : List Char) :
    List Char :=
  let text_lower := pyLower full_text
  let wake_lower := pyLower matched_wake_word
  match findSub text_lower wake_lower with
  | some idx =>
    let command_text := pyStrip (full_text.drop (idx + wake_lower.length))
    pyStrip (strip_connective command_text)
  | none =>
    let words := tokens text_lower
    match words.findIdx? (fun w => decide (w = wake_lower)
        || decide (w ∈ d.variations)) with
    | some i => joinSpaces (words.drop (i + 1))
    | none => full_text

/-- The extraction rule in the spec's words (section 4.4, found case): locate
the matched phrase's first case-insensitive occurrence, take everything after
it, and strip a leading comma or the connectives "and then"/"then". -/
def extraction_rule_spec (full_text matched : List Char) : List Char :=
  match findSub (pyLower full_text) (pyLower matched) with
  | some idx => pyStrip (strip_connective (pyStrip (full_text.drop (idx + matched.length))))
  | none => full_text

/-! ## Handler session state (handler.py) -/

/-- Wake-word session fields of src/voice/handler.py's VoiceCommandHandler
(wake_word_only_mode is constantly true there and is omitted). -/
structure HState where
  wake_word_detected : Bool
  last_wake_word_time : ℚ
  wake_word_timeout : ℚ
deriving DecidableEq, Repr

/-- VoiceCommandHandler._is_wake_word_active (handler.py): returns the updated
session together with the activity flag; a stale session is reset. -/
def h_is_wake_word_active (s : HState) (now : ℚ) : HState × Bool :=
  if s.wake_word_detected = false then (s, false)
  else if s.wake_word_timeout < now - s.last_wake_word_time then
    ({ s with wake_word_detected := false }, false)
  else (s, true)

/-- The transcription-processing step of _process_audio_chunks (handler.py)
after a successful transcription: detect the wake word; on detection refresh
the session and dispatch the embedded command when non-empty; otherwise
dispatch the whole text only while the wake word is still active. Returns the
new session and the dispatched command, if any. -/
def h_process_text (d : WakeWordDetector) (s : HState) (now : ℚ)
    (text : List Char) : HState × Option (List Char) :=
  let r := detect_wake_word d text
  if r.detected then
    let s1 := { s with wake_word_detected := true, last_wake_word_time := now }
    let command_text := extract_command d text (r.matched_word.getD [])
    if pyStrip command_text = [] then (s1, none) else (s1, some command_text)
  else
    let p := h_is_wake_word_active s now
    if p.2 then (p.1, some text) else (p.1, none)

/-! ## voice_commands.py session state -/

/-- Wake-word session fields of voice_commands.py's VoiceCommandHandler. -/
structure VcState where
  wake_word_detected : Bool
  wake_word_only_mode : Bool
  last_wake_word_time : ℚ
  wake_word_timeout : ℚ
deriving DecidableEq, Repr

/-- VoiceCommandHandler._check_wake_word_timeout (voice_commands.py). -/
def vc_check_timeout (s : VcState) (now : ℚ) : VcState :=
  if s.wake_word_detected = true ∧ s.wake_word_timeout < now - s.last_wake_word_time then
    { s with wake_word_detected := false, wake_word_only_mode := true }
  else s

/-- VoiceCommandHandler._detect_wake_word (voice_commands.py): simple
whitespace-token membership test for the wake word. -/
def vc_detect (wake_word text : List Char) : Bool :=
  if text = [] then false
  else pyLower wake_word ∈ pySplit (pyLower text)

/-- VoiceCommandHandler._process_wake_word_detection (voice_commands.py):
on detection enter command mode, refresh the timestamp and return the text
with all wake-word tokens removed (when non-empty). -/
def vc_process_wake (wake_word : List Char) (s : VcState) (now : ℚ)
    (text : List Char) : VcState × Option (List Char) :=
  if vc_detect wake_word text then
    let s1 := { s with wake_word_detected := true, wake_word_only_mode := false,
                       last_wake_word_time := now }
    let filtered := (pySplit (pyLower text)).filter (fun w => w ≠ pyLower wake_word)
    let remaining := pyStrip (joinSpaces filtered)
    if remaining = [] then (s1, none) else (s1, some remaining)
  else (s, none)

/-- VoiceCommandHandler.send_text_command (voice_commands.py), at the level of
session state and dispatched command: the timeout is enforced first; in wake
word mode only a transcription carrying the wake word can dispatch (its
remainder); in command mode a wake-word-free transcription is dispatched
whole. The acknowledgement strings returned in the no-dispatch cases are not
modelled. -/
def vc_send_text (wake_word : List Char) (s : VcState) (now : ℚ)
    (text : List Char) : VcState × Option (List Char) :=
  let s0 := vc_check_timeout s now
  if s0.wake_word_only_mode then
    match vc_process_wake wake_word s0 now text with
    | (s1, some cmd) => (s1, some cmd)
    | (s1, none) => (s1, none)
  else
    match vc_process_wake wake_word s0 now text with
    | (s1, some cmd) => (s1, some cmd)
    | (s1, none) => (s1, some text)

/-! ## Conversation history and dispatch -/

/-- One conversation-history entry. -/
structure Message where
  role : List Char
  content : List Char
deriving DecidableEq, Repr

abbrev History := List Message

def userMsg (t : List Char) : Message := ⟨S "user", t⟩

def assistantMsg (t : List Char) : Message := ⟨S "assistant", t⟩

/-- Outcome of the single backend POST of handler.py's send_text_command:
HTTP 200 whose JSON carries a data object (response text, audioFile) or does
not, a non-200 status, or a raised network error. -/
inductive HReply
  | ok (data : Option (List Char × List Char))
  | httpError (status : Nat) (body : List Char)
  | netError (e : List Char)
deriving DecidableEq, Repr

/-- Result of a dispatch: new history, value returned to the caller, and how
many backend calls were made. -/
structure DispatchOut where
  history : History
  response : Option (List Char × List Char)
  backendCalls : Nat
deriving DecidableEq, Repr

/-- VoiceCommandHandler.send_text_command (src/voice/handler.py): append the
user entry, trim to the last max_history entries when the length exceeds
2*max_history, make one backend call, and append the assistant entry only on
a 200 response with a data object and non-empty response text. -/
def handler_send (max_history : Nat) (hist : History) (text : List Char)
    (r : HReply) : DispatchOut :=
  let h1 := hist ++ [userMsg text]
  let h2 := if max_history * 2 < h1.length then pyTailSlice max_history h1 else h1
  match r with
  | .ok none => ⟨h2, none, 1⟩
  | .ok (some (resp, audio)) =>
    if resp = [] then ⟨h2, none, 1⟩
    else ⟨h2 ++ [assistantMsg resp], some (resp, audio), 1⟩
  | .httpError _ _ => ⟨h2, none, 1⟩
  | .netError _ => ⟨h2, none, 1⟩

/-- Outcome of the single backend POST of voice_commands.py's
_send_ai_command. -/
inductive VcReply
  | ok (response audioFile : List Char)
  | httpError (body : List Char)
  | netError (e : List Char)
deriving DecidableEq, Repr

/-- Result of a voice_commands.py dispatch. -/
structure VcDispatchOut where
  history : History
  response : Option (List Char)
  backendCalls : Nat
deriving DecidableEq, Repr

/-- VoiceCommandHandler._send_ai_command (voice_commands.py, text path):
ignore empty commands; on a 200 response append the user and assistant
entries and trim to the last 2*max_history entries; on failure leave the
history untouched and return nothing. -/
def vc_send_ai (max_history : Nat) (hist : History) (command_text : List Char)
    (r : VcReply) : VcDispatchOut :=
  if pyStrip command_text = [] then ⟨hist, none, 0⟩
  else
    match r with
    | .ok resp _ =>
      let h1 := hist ++ [userMsg command_text, assistantMsg resp]
      let h2 := if max_history * 2 < h1.length then pyTailSlice (max_history * 2) h1 else h1
      ⟨h2, some resp, 1⟩
    | .httpError _ => ⟨hist, none, 1⟩
    | .netError _ => ⟨hist, none, 1⟩

/-! ## Transcription gateway (voice_commands.py _transcribe_audio) -/

/-- What one call of the native engine's transcribe_file does: return a result
dict {success, text, error} or raise. -/
inductive NativeOutcome
  | result (success : Bool) (text : List Char) (error : List Char)
  | raised (e : List Char)
deriving DecidableEq, Repr

/-- What the single remote transcription POST does: HTTP 200 carrying
data.transcription (possibly empty), a non-200 status, a network error, or a
file I/O error. -/
inductive RemoteOutcome
  | http200 (transcription : List Char)
  | httpErr (status : Nat) (body : List Char)
  | netError (e : List Char)
  | ioError (e : List Char)
deriving DecidableEq, Repr

/-- VoiceCommandHandler._transcribe_audio_backend (voice_commands.py): the
transcription on a 200 response, the empty string on every failure. -/
def transcribe_audio_backend (r : RemoteOutcome) : List Char :=
  match r with
  | .http200 t => t
  | .httpErr _ _ => []
  | .netError _ => []
  | .ioError _ => []

/-- Result of the transcription gateway: text and number of remote calls. -/
structure TranscribeOut where
  text : List Char
  remoteCalls : Nat
deriving DecidableEq, Repr

/-- The single remote fallback of _transcribe_audio. -/
def transcribe_fallback (remote : RemoteOutcome) : TranscribeOut :=
  ⟨transcribe_audio_backend remote, 1⟩

/-- VoiceCommandHandler._transcribe_audio (voice_commands.py): use the native
engine when configured and loaded; fall back to one remote call when it is
unavailable, unsuccessful, empty, or raises. -/
def transcribe_audio (use_native_stt : Bool) (native : Option NativeOutcome)
    (remote : RemoteOutcome) : TranscribeOut :=
  if use_native_stt then
    match native with
    | some (.result true t _) =>
      if pyStrip t = [] then transcribe_fallback remote else ⟨pyStrip t, 0⟩
    | some (.result false _ _) => transcribe_fallback remote
    | some (.raised _) => transcribe_fallback remote
    | none => transcribe_fallback remote
  else transcribe_fallback remote

/-- Whether the native path serves the request without falling back. -/
def native_serves (use_native_stt : Bool) (native : Option NativeOutcome) : Bool :=
  match use_native_stt, native with
  | true, some (.result true t _) => !(pyStrip t).isEmpty
  | _, _ => false

/-- Whether the remote call produces no usable transcription. -/
def remote_failed (r : RemoteOutcome) : Bool :=
  match r with
  | .http200 t => t.isEmpty
  | _ => true

/-- Whether a handler.py backend reply makes send_text_command fail: non-200
status, network error, missing data object, or empty response text. -/
def hReplyFailed (r : HReply) : Bool :=
  match r with
  | .ok none => true
  | .ok (some (resp, _)) => resp.isEmpty
  | .httpError _ _ => true
  | .netError _ => true

/-- Whether a voice_commands.py backend reply makes _send_ai_command fail:
anything but a 200 status. -/
def vcReplyFailed (r : VcReply) : Bool :=
  match r with
  | .ok _ _ => false
  | .httpError _ => true
  | .netError _ => true

/-- Invariant of the _fuzzy_match accumulator: it is either still the initial
(0, None), or it records a word/variation pair that passed every gate of the
inner loop, with the accumulator holding exactly that pair's ratio and word. -/
def FuzzyInv (d : WakeWordDetector) (words : List (List Char))
    (best : ℚ × Option (List Char)) : Prop :=
  best = (0, none) ∨
  ∃ w v, w ∈ words ∧ pyLower w ∉ common_words_blacklist ∧ v ∈ d.variations ∧
    4 ≤ w.length ∧ 4 ≤ v.length ∧ w.head? = v.head? ∧
    min_fuzzy_score d.similarity_threshold w ≤ similarityScore w v ∧
    best = (similarityScore w v, some w)

/-! ## Theorems -/

theorem add_variation_of_not_new (d : WakeWordDetector) (v : List Char)
    (h : ¬(pyStrip (pyLower v) ≠ [] ∧ pyStrip (pyLower v) ∉ d.variations)) :
    add_variation d v = d := by
  unfold add_variation
  exact if_neg h

theorem add_variation_variations (d : WakeWordDetector) (v : List Char)
    (h : pyStrip (pyLower v) ≠ [] ∧ pyStrip (pyLower v) ∉ d.variations) :
    (add_variation d v).variations = d.variations ++ [pyStrip (pyLower v)] := by
  unfold add_variation
  rw [if_pos h]
  by_cases hp : d.phonetic_matching
  · simp only [hp, if_true]
    split
    · rfl
    · rfl
  · simp [hp]

/-- Claim C9: add_variation is idempotent, and re-adding a variation whose
normalized form is already present leaves the detector unchanged (so the
variation-set size is unchanged). -/
theorem claim_C9 (d : WakeWordDetector) (v : List Char) :
    add_variation (add_variation d v) v = add_variation d v ∧
    (pyStrip (pyLower v) ∈ d.variations → add_variation d v = d) := by
  constructor
  · by_cases h : pyStrip (pyLower v) ≠ [] ∧ pyStrip (pyLower v) ∉ d.variations
    · have hmem : pyStrip (pyLower v) ∈ (add_variation d v).variations := by
        rw [add_variation_variations d v h]
        simp
      exact add_variation_of_not_new _ v (fun hc => hc.2 hmem)
    · rw [add_variation_of_not_new d v h]
      exact add_variation_of_not_new d v h
  · intro hm
    exact add_variation_of_not_new d v (fun hc => hc.2 hm)

/-- C9 at a concrete detector: re-adding the present variation "aida" twice
equals adding it once, and adding it at all is a no-op. -/
theorem claim_C9_witness :
    add_variation (add_variation ⟨[S "aida"], mkRat 3 5, false, []⟩ (S "aida")) (S "aida")
      = add_variation ⟨[S "aida"], mkRat 3 5, false, []⟩ (S "aida") ∧
    add_variation ⟨[S "aida"], mkRat 3 5, false, []⟩ (S "aida")
      = ⟨[S "aida"], mkRat 3 5, false, []⟩ :=
  ⟨(claim_C9 ⟨[S "aida"], mkRat 3 5, false, []⟩ (S "aida")).1,
   (claim_C9 ⟨[S "aida"], mkRat 3 5, false, []⟩ (S "aida")).2 (by decide)⟩

/-- Claim C1: a token of the lowercased input that equals a variation forces
an exact detection with confidence 1; the matched word is such a token. -/
theorem claim_C1 (d : WakeWordDetector) (text t : List Char)
    (ht : t ∈ tokens (pyStrip (pyLower text))) (hv : t ∈ d.variations) :
    ∃ w, w ∈ tokens (pyStrip (pyLower text)) ∧ w ∈ d.variations ∧
      detect_wake_word d text =
        { detected := true, method := some Method.exact, matched_word := some w,
          confidence := 1, similarity_score := 1 } := by
  have hne : text ≠ [] := by
    intro h
    rw [h] at ht
    have hnil : tokens (pyStrip (pyLower ([] : List Char))) = [] := rfl
    rw [hnil] at ht
    exact absurd ht (List.not_mem_nil t)
  have hsome : ((tokens (pyStrip (pyLower text))).find?
      (fun w => decide (w ∈ d.variations))).isSome := by
    rw [List.find?_isSome]
    exact ⟨t, ht, by simpa using hv⟩
  obtain ⟨w, hfind⟩ := Option.isSome_iff_exists.mp hsome
  refine ⟨w, List.mem_of_find?_eq_some hfind, by simpa using List.find?_some hfind, ?_⟩
  unfold detect_wake_word
  rw [if_neg hne]
  simp only [hfind]

/-- C1 at a concrete detector and input. -/
theorem claim_C1_witness :
    ∃ w, w ∈ tokens (pyStrip (pyLower (S "hey aida now"))) ∧
      w ∈ (⟨[S "aida"], mkRat 3 5, true, [S "A300"]⟩ : WakeWordDetector).variations ∧
      detect_wake_word ⟨[S "aida"], mkRat 3 5, true, [S "A300"]⟩ (S "hey aida now") =
        { detected := true, method := some Method.exact,
          matched_word := some (S "aida"), confidence := 1, similarity_score := 1 } := by
  obtain ⟨w, h1, h2, h3⟩ :=
    claim_C1 ⟨[S "aida"], mkRat 3 5, true, [S "A300"]⟩ (S "hey aida now") (S "aida")
      (by decide) (by decide)
  have hw : w = S "aida" := by
    have : w ∈ [S "aida"] := h2
    simpa using this
  exact ⟨w, h1, h2, by rw [h3, hw]⟩

/-- Claim C8: whenever the matched phrase occurs case-insensitively in the
raw transcription, extraction follows the spec's substring rule, and the two
concrete examples of the spec hold. -/
theorem claim_C8 (d : WakeWordDetector) (full matched : List Char) :
    ((findSub (pyLower full) (pyLower matched)).isSome →
      extract_command d full matched = extraction_rule_spec full matched) ∧
    extract_command d (S "aida turn on the lights") (S "aida")
      = S "turn on the lights" ∧
    extract_command d (S "aida") (S "aida") = S "" := by
  refine ⟨?_, ?_, ?_⟩
  · intro h
    unfold extract_command extraction_rule_spec
    cases hf : findSub (pyLower full) (pyLower matched) with
    | none => rw [hf] at h; simp at h
    | some idx =>
      simp only [hf]
      rw [show (pyLower matched).length = matched.length from List.length_map _ _]
  · have hf : findSub (pyLower (S "aida turn on the lights")) (pyLower (S "aida"))
        = some 0 := by decide
    unfold extract_command
    simp only [hf]
    decide
  · have hf : findSub (pyLower (S "aida")) (pyLower (S "aida")) = some 0 := by decide
    unfold extract_command
    simp only [hf]
    decide

/-- C8 at a concrete detector and phrase occurring mid-utterance. -/
theorem claim_C8_witness :
    extract_command ⟨[S "aida"], mkRat 3 5, false, []⟩ (S "hey aida, play music") (S "aida")
      = extraction_rule_spec (S "hey aida, play music") (S "aida") :=
  (claim_C8 ⟨[S "aida"], mkRat 3 5, false, []⟩ (S "hey aida, play music") (S "aida")).1
    (by decide)

/-- Claim C7 (amended): the gateway serves from the native engine when it is
configured, loaded, successful and non-empty (making no remote call); on any
native failure it makes exactly one remote call; it never makes more than one
remote call; and when the remote call also fails it returns the empty string
(the error is logged only, not returned). -/
theorem claim_C7_amended (use_native_stt : Bool) (native : Option NativeOutcome)
    (remote : RemoteOutcome) :
    (transcribe_audio use_native_stt native remote).remoteCalls ≤ 1 ∧
    (∀ t e, use_native_stt = true → native = some (.result true t e) →
      pyStrip t ≠ [] →
      transcribe_audio use_native_stt native remote = ⟨pyStrip t, 0⟩) ∧
    (native_serves use_native_stt native = false →
      (transcribe_audio use_native_stt native remote).remoteCalls = 1) ∧
    (native_serves use_native_stt native = false → remote_failed remote = true →
      (transcribe_audio use_native_stt native remote).text = []) := by
  refine ⟨?_, ?_, ?_, ?_⟩
  · cases use_native_stt with
    | false => simp [transcribe_audio, transcribe_fallback]
    | true =>
      rcases native with _ | n
      · simp [transcribe_audio, transcribe_fallback]
      · rcases n with ⟨s, t, e⟩ | e
        · cases s
          · simp [transcribe_audio, transcribe_fallback]
          · by_cases ht : pyStrip t = [] <;>
              simp [transcribe_audio, transcribe_fallback, ht]
        · simp [transcribe_audio, transcribe_fallback]
  · intro t e hu hn ht
    subst hu
    subst hn
    simp [transcribe_audio, ht]
  · intro hns
    cases use_native_stt with
    | false => simp [transcribe_audio, transcribe_fallback]
    | true =>
      rcases native with _ | n
      · simp [transcribe_audio, transcribe_fallback]
      · rcases n with ⟨s, t, e⟩ | e
        · cases s
          · simp [transcribe_audio, transcribe_fallback]
          · have ht : pyStrip t = [] := by
              simp [native_serves, List.isEmpty_iff] at hns
              exact hns
            simp [transcribe_audio, transcribe_fallback, ht]
        · simp [transcribe_audio, transcribe_fallback]
  · intro hns hrf
    have htext : transcribe_audio_backend remote = [] := by
      rcases remote with t | sb | e | e
      · simp [remote_failed, List.isEmpty_iff] at hrf
        simp [transcribe_audio_backend, hrf]
      · rfl
      · rfl
      · rfl
    cases use_native_stt with
    | false => simp [transcribe_audio, transcribe_fallback, htext]
    | true =>
      rcases native with _ | n
      · simp [transcribe_audio, transcribe_fallback, htext]
      · rcases n with ⟨s, t, e⟩ | e
        · cases s
          · simp [transcribe_audio, transcribe_fallback, htext]
          · have ht : pyStrip t = [] := by
              simp [native_serves, List.isEmpty_iff] at hns
              exact hns
            simp [transcribe_audio, transcribe_fallback, ht, htext]
        · simp [transcribe_audio, transcribe_fallback, htext]

/-- C7 counterexample: when both engines fail the gateway returns the empty
string; its output is identical for different error values, so no error is
carried to the caller, contradicting the claimed success=false-with-error
result. -/
theorem claim_C7_counterexample :
    transcribe_audio true (some (.result false [] (S "native error 1")))
        (.netError (S "remote error A"))
      = transcribe_audio true (some (.result false [] (S "native error 2")))
        (.netError (S "remote error B")) ∧
    transcribe_audio true (some (.result false [] (S "native error 1")))
        (.netError (S "remote error A")) = ⟨[], 1⟩ :=
  ⟨rfl, rfl⟩

/-- C7 at concrete outcomes: a successful native result is served stripped
with no remote call, and a failing native result with an empty remote
transcription yields the empty string. -/
theorem claim_C7_witness :
    transcribe_audio true (some (.result true (S " hello there ") (S "")))
        (.netError (S "x")) = ⟨pyStrip (S " hello there "), 0⟩ ∧
    (transcribe_audio true none (.http200 [])).text = [] :=
  ⟨(claim_C7_amended true (some (.result true (S " hello there ") (S "")))
      (.netError (S "x"))).2.1 (S " hello there ") (S "") rfl rfl (by decide),
   (claim_C7_amended true none (.http200 [])).2.2.2 (by decide) (by decide)⟩

theorem length_pyTailSlice (m : Nat) (l : List α) :
    (pyTailSlice m l).length = if m = 0 then l.length else l.length - (l.length - m) := by
  unfold pyTailSlice
  split
  · rfl
  · simp [List.length_drop]

theorem handler_send_history_of_failed (m : Nat) (hist : History) (t : List Char)
    (rh : HReply) (hf : hReplyFailed rh = true) :
    (handler_send m hist t rh).history =
      if m * 2 < (hist ++ [userMsg t]).length then pyTailSlice m (hist ++ [userMsg t])
      else hist ++ [userMsg t] := by
  rcases rh with d | sb | e
  · rcases d with _ | ⟨resp, audio⟩
    · rfl
    · have hresp : resp = [] := by
        simp [hReplyFailed, List.isEmpty_iff] at hf
        exact hf
      subst hresp
      rfl
  · rfl
  · rfl

theorem handler_send_out_of_failed (m : Nat) (hist : History) (t : List Char)
    (rh : HReply) (hf : hReplyFailed rh = true) :
    (handler_send m hist t rh).response = none ∧
    (handler_send m hist t rh).backendCalls = 1 := by
  rcases rh with d | sb | e
  · rcases d with _ | ⟨resp, audio⟩
    · exact ⟨rfl, rfl⟩
    · have hresp : resp = [] := by
        simp [hReplyFailed, List.isEmpty_iff] at hf
        exact hf
      subst hresp
      exact ⟨rfl, rfl⟩
  · exact ⟨rfl, rfl⟩
  · exact ⟨rfl, rfl⟩

/-- Claim C6 (amended): on a failing backend reply neither dispatcher retries
and neither returns a response; the voice_commands dispatcher leaves the
conversation history exactly unchanged, while the handler dispatcher keeps
the user entry it appended before the call (trimmed when over the bound), so
its history always differs from the pre-dispatch history. -/
theorem claim_C6_amended (m : Nat) (hist : History) (t : List Char)
    (rh : HReply) (rv : VcReply) :
    (vcReplyFailed rv = true → pyStrip t ≠ [] →
      (vc_send_ai m hist t rv).history = hist ∧
      (vc_send_ai m hist t rv).response = none ∧
      (vc_send_ai m hist t rv).backendCalls = 1) ∧
    (hReplyFailed rh = true →
      (handler_send m hist t rh).response = none ∧
      (handler_send m hist t rh).backendCalls = 1 ∧
      (handler_send m hist t rh).history ≠ hist) := by
  constructor
  · intro hf ht
    rcases rv with ⟨resp, audio⟩ | b | e
    · simp [vcReplyFailed] at hf
    · simp [vc_send_ai, ht]
    · simp [vc_send_ai, ht]
  · intro hf
    obtain ⟨hresp, hcalls⟩ := handler_send_out_of_failed m hist t rh hf
    refine ⟨hresp, hcalls, ?_⟩
    rw [handler_send_history_of_failed m hist t rh hf]
    have hl1 : (hist ++ [userMsg t]).length = hist.length + 1 := by simp
    intro heq
    have hlen : (if m * 2 < (hist ++ [userMsg t]).length
        then pyTailSlice m (hist ++ [userMsg t])
        else hist ++ [userMsg t]).length = hist.length := by rw [heq]
    split at hlen
    · rw [length_pyTailSlice, hl1] at hlen
      rename_i hcond
      rw [hl1] at hcond
      split at hlen <;> omega
    · rw [hl1] at hlen
      omega

/-- C6 counterexample: a failing dispatch in handler.py leaves the appended
user entry in the history, so the history is not restored. -/
theorem claim_C6_counterexample :
    (handler_send 10 [] (S "hi") (.netError (S "boom"))).history = [userMsg (S "hi")] ∧
    (handler_send 10 [] (S "hi") (.netError (S "boom"))).history ≠ ([] : History) := by
  constructor
  · rfl
  · decide

/-- C6 at a concrete failing dispatch of the voice_commands dispatcher. -/
theorem claim_C6_witness :
    (vc_send_ai 10 [userMsg (S "a")] (S "hi") (.netError (S "x"))).history
      = [userMsg (S "a")] ∧
    (vc_send_ai 10 [userMsg (S "a")] (S "hi") (.netError (S "x"))).response = none := by
  have h := (claim_C6_amended 10 [userMsg (S "a")] (S "hi")
      (.netError (S "x")) (.netError (S "x"))).1 (by decide) (by decide)
  exact ⟨h.1, h.2.1⟩

theorem handler_send_history_ok (m : Nat) (hist : History) (t resp audio : List Char)
    (h : resp ≠ []) :
    (handler_send m hist t (.ok (some (resp, audio)))).history =
      (if m * 2 < (hist ++ [userMsg t]).length then pyTailSlice m (hist ++ [userMsg t])
       else hist ++ [userMsg t]) ++ [assistantMsg resp] := by
  simp only [handler_send]
  rw [if_neg h]

/-- Claim C5 (amended): the voice_commands dispatcher preserves the
2*max_history bound (for max_history at least 1), trims by dropping the
oldest entries (its history is always the old one unchanged or a suffix of
the old one with the two new entries appended), and keeps a full history at
exactly the bound; the handler dispatcher instead trims to max_history after
appending the user entry, so between its dispatches the history length is
only bounded by 2*max_history + 1. -/
theorem claim_C5_amended (m : Nat) (hist : History) (t : List Char)
    (rh : HReply) (rv : VcReply) (hm : 1 ≤ m) :
    (hist.length ≤ 2 * m → (vc_send_ai m hist t rv).history.length ≤ 2 * m) ∧
    ((vc_send_ai m hist t rv).history = hist ∨
      ∃ resp, List.IsSuffix (vc_send_ai m hist t rv).history
        (hist ++ [userMsg t, assistantMsg resp])) ∧
    (hist.length = 2 * m → ∀ resp audio,
      (vc_send_ai m hist t (.ok resp audio)).history.length = 2 * m) ∧
    (hist.length ≤ 2 * m + 1 →
      (handler_send m hist t rh).history.length ≤ 2 * m + 1) := by
  have hl2 : ∀ resp, (hist ++ [userMsg t, assistantMsg resp]).length
      = hist.length + 2 := by
    intro resp
    simp
  refine ⟨?_, ?_, ?_, ?_⟩
  · intro hb
    by_cases ht : pyStrip t = []
    · simp [vc_send_ai, ht]
      omega
    · rcases rv with ⟨resp, audio⟩ | b | e
      · simp only [vc_send_ai, if_neg ht]
        split
        · rw [length_pyTailSlice, hl2]
          rename_i hcond
          rw [hl2] at hcond
          split <;> omega
        · rename_i hcond
          rw [hl2] at hcond
          rw [hl2]
          omega
      · simp [vc_send_ai, ht]
        omega
      · simp [vc_send_ai, ht]
        omega
  · by_cases ht : pyStrip t = []
    · left
      simp [vc_send_ai, ht]
    · rcases rv with ⟨resp, audio⟩ | b | e
      · right
        refine ⟨resp, ?_⟩
        simp only [vc_send_ai, if_neg ht]
        split
        · unfold pyTailSlice
          split
          · exact List.suffix_refl _
          · exact List.drop_suffix _ _
        · exact List.suffix_refl _
      · left
        simp [vc_send_ai, ht]
      · left
        simp [vc_send_ai, ht]
  · intro hb resp audio
    by_cases ht : pyStrip t = []
    · simp [vc_send_ai, ht]
      omega
    · simp only [vc_send_ai, if_neg ht]
      split
      · rw [length_pyTailSlice, hl2, hb]
        split <;> omega
      · rename_i hcond
        rw [hl2, hb] at hcond
        omega
  · intro hb
    have hl1 : (hist ++ [userMsg t]).length = hist.length + 1 := by simp
    have boundA : (if m * 2 < (hist ++ [userMsg t]).length
        then pyTailSlice m (hist ++ [userMsg t])
        else hist ++ [userMsg t]).length ≤ 2 * m := by
      split
      · rw [length_pyTailSlice, hl1]
        rename_i hcond
        rw [hl1] at hcond
        split <;> omega
      · rename_i hcond
        rw [hl1] at hcond
        rw [hl1]
        omega
    rcases rh with d | ⟨sb, body⟩ | e
    · rcases d with _ | ⟨resp, audio⟩
      · rw [handler_send_history_of_failed m hist t (.ok none) rfl]
        omega
      · by_cases hresp : resp = []
        · subst hresp
          rw [handler_send_history_of_failed m hist t (.ok (some ([], audio))) rfl]
          omega
        · rw [handler_send_history_ok m hist t resp audio hresp]
          rw [List.length_append, List.length_singleton]
          omega
    · rw [handler_send_history_of_failed m hist t (.httpError sb body) rfl]
      omega
    · rw [handler_send_history_of_failed m hist t (.netError e) rfl]
      omega

/-- C5 counterexample: sixteen successful handler.py dispatches from an empty
history (max_history = 10) leave 21 entries, exceeding 2*max_history = 20
between dispatches, so the claimed invariant fails on handler.py. -/
theorem claim_C5_counterexample :
    ((fun h => (handler_send 10 h (S "hi") (.ok (some (S "ok", S "")))).history)^[16]
        ([] : History)).length = 21 ∧ 2 * 10 < 21 := by
  constructor
  · decide
  · decide

/-- C5 at a concrete dispatch: with max_history 1 the voice_commands history
stays within the bound and the handler history within bound + 1. -/
theorem claim_C5_witness :
    (vc_send_ai 1 [] (S "hi") (.ok (S "r") (S ""))).history.length ≤ 2 * 1 ∧
    (handler_send 1 [] (S "hi") (.ok (some (S "r", S "")))).history.length ≤ 2 * 1 + 1 := by
  have h := claim_C5_amended 1 [] (S "hi") (.ok (some (S "r", S "")))
    (.ok (S "r") (S "")) (by decide)
  exact ⟨h.1 (by decide), h.2.2.2 (by decide)⟩

/-- Claim C4: a transcription processed in a stale COMMAND_ACTIVE session is
handled exactly as from WAKE_ONLY — the timeout reset happens before any
dispatch decision in both implementations — and in particular a stale session
never dispatches a wake-word-free transcription, ending in WAKE_ONLY. -/
theorem claim_C4 (d : WakeWordDetector) (wake_word : List Char) (hs : HState)
    (vs : VcState) (now : ℚ) (text : List Char) :
    (hs.wake_word_detected = true →
      hs.wake_word_timeout < now - hs.last_wake_word_time →
      (h_process_text d hs now text
          = h_process_text d { hs with wake_word_detected := false } now text) ∧
      ((detect_wake_word d text).detected = false →
        (h_process_text d hs now text).2 = none ∧
        (h_process_text d hs now text).1.wake_word_detected = false)) ∧
    (vs.wake_word_only_mode = false → vs.wake_word_detected = true →
      vs.wake_word_timeout < now - vs.last_wake_word_time →
      (vc_send_text wake_word vs now text
          = vc_send_text wake_word
              { vs with wake_word_detected := false, wake_word_only_mode := true }
              now text) ∧
      (vc_detect wake_word text = false →
        (vc_send_text wake_word vs now text).2 = none ∧
        (vc_send_text wake_word vs now text).1.wake_word_only_mode = true)) := by
  constructor
  · intro h1 h2
    have hact : h_is_wake_word_active hs now
        = ({ hs with wake_word_detected := false }, false) := by
      unfold h_is_wake_word_active
      rw [if_neg (by simp [h1]), if_pos h2]
    have hact2 : h_is_wake_word_active { hs with wake_word_detected := false } now
        = ({ hs with wake_word_detected := false }, false) := by
      unfold h_is_wake_word_active
      rw [if_pos rfl]
    constructor
    · by_cases hdet : (detect_wake_word d text).detected
      · simp only [h_process_text, hdet, if_true]
      · simp only [h_process_text, hdet, Bool.false_eq_true, if_false, hact, hact2]
    · intro hdet
      simp only [h_process_text, hdet, Bool.false_eq_true, if_false, hact]
      exact ⟨trivial, trivial⟩
  · intro v1 v2 v3
    have hto : vc_check_timeout vs now
        = { vs with wake_word_detected := false, wake_word_only_mode := true } := by
      unfold vc_check_timeout
      rw [if_pos ⟨v2, v3⟩]
    have hto2 : vc_check_timeout
        { vs with wake_word_detected := false, wake_word_only_mode := true } now
        = { vs with wake_word_detected := false, wake_word_only_mode := true } := by
      unfold vc_check_timeout
      rw [if_neg]
      intro hc
      exact absurd hc.1 (by simp)
    constructor
    · unfold vc_send_text
      rw [hto, hto2]
    · intro hdet
      unfold vc_send_text
      rw [hto]
      have hw : vc_process_wake wake_word
          { vs with wake_word_detected := false, wake_word_only_mode := true } now text
          = ({ vs with wake_word_detected := false, wake_word_only_mode := true },
             none) := by
        unfold vc_process_wake
        rw [hdet]
        simp
      simp only [hw]
      exact ⟨rfl, rfl⟩

/-- C4 at a concrete stale session and wake-word-free utterance: nothing is
dispatched on either implementation. -/
theorem claim_C4_witness :
    (h_process_text ⟨[S "aida"], mkRat 3 5, false, []⟩ ⟨true, 0, 10⟩ 11 (S "hello")).2
      = none ∧
    (vc_send_text (S "aida") ⟨true, false, 0, 10⟩ 11 (S "hello")).2 = none := by
  have h := claim_C4 ⟨[S "aida"], mkRat 3 5, false, []⟩ (S "aida") ⟨true, 0, 10⟩
    ⟨true, false, 0, 10⟩ 11 (S "hello")
  exact ⟨((h.1 rfl (by norm_num)).2 (by decide)).1,
         ((h.2 rfl rfl (by norm_num)).2 (by decide)).1⟩

theorem fuzzy_step_inv (d : WakeWordDetector) (words : List (List Char))
    (w : List Char) (hw : w ∈ words) (hb : pyLower w ∉ common_words_blacklist)
    (best : ℚ × Option (List Char)) (v : List Char) (hv : v ∈ d.variations)
    (h : FuzzyInv d words best) : FuzzyInv d words (fuzzy_step d w best v) := by
  unfold fuzzy_step
  split
  · exact h
  · split
    · exact h
    · dsimp only
      split
      · rename_i hlen hhead hcond
        right
        refine ⟨w, v, hw, hb, hv, ?_, ?_, ?_, hcond.2, rfl⟩
        · omega
        · omega
        · exact not_ne_iff.mp hhead
      · exact h

theorem fuzzy_inner_inv (d : WakeWordDetector) (words : List (List Char))
    (w : List Char) (hw : w ∈ words) (hb : pyLower w ∉ common_words_blacklist) :
    ∀ (l : List (List Char)), (∀ x ∈ l, x ∈ d.variations) →
    ∀ best, FuzzyInv d words best →
      FuzzyInv d words (l.foldl (fuzzy_step d w) best) := by
  intro l
  induction l with
  | nil => intro _ best h; exact h
  | cons v vs ih =>
    intro hl best h
    simp only [List.foldl_cons]
    exact ih (fun x hx => hl x (List.mem_cons_of_mem _ hx)) _
      (fuzzy_step_inv d words w hw hb best v (hl v (List.mem_cons_self _ _)) h)

theorem fuzzy_outer_inv (d : WakeWordDetector) (words : List (List Char)) :
    ∀ (ws : List (List Char)), (∀ x ∈ ws, x ∈ words) →
    ∀ best, FuzzyInv d words best →
      FuzzyInv d words (ws.foldl (fuzzy_word d) best) := by
  intro ws
  induction ws with
  | nil => intro _ best h; exact h
  | cons w rest ih =>
    intro hws best h
    simp only [List.foldl_cons]
    refine ih (fun x hx => hws x (List.mem_cons_of_mem _ hx)) _ ?_
    unfold fuzzy_word
    split
    · exact h
    · rename_i hb
      exact fuzzy_inner_inv d words w (hws w (List.mem_cons_self _ _)) hb
        d.variations (fun x hx => hx) best h

theorem fuzzy_fold_inv (d : WakeWordDetector) (words : List (List Char)) :
    FuzzyInv d words (words.foldl (fuzzy_word d) (0, none)) :=
  fuzzy_outer_inv d words words (fun _ h => h) (0, none) (Or.inl rfl)

theorem phonetic_match_not_fuzzy (d : WakeWordDetector) (ws : List (List Char)) :
    (phonetic_match d ws).method ≠ some Method.fuzzy := by
  unfold phonetic_match
  cases h : ws.find? (fun w => decide (3 ≤ w.length)
      && decide (soundex w ∈ d.soundex_codes)) <;> simp [h, no_detection]

theorem multiword_match_not_fuzzy (d : WakeWordDetector) (t : List Char) :
    (multiword_match d t).method ≠ some Method.fuzzy := by
  unfold multiword_match
  cases h : d.variations.find? (fun v => decide (' ' ∈ v)
      && decide (d.similarity_threshold ≤ similarityScore (cleanText t) v)) <;>
    simp [h, no_detection]

/-- Claim C2 (amended): whenever detect reports a fuzzy result with an actual
matched word, that word is a non-blacklisted input token of length at least 4
matching some variation of length at least 4 with the same first character,
at a ratio at or above the threshold and above the raised minimum for words
longer than 6 characters, the ratio being the reported confidence. (With a
non-positive threshold the fuzzy stage can also fire vacuously, reporting no
matched word and confidence 0, which refutes the claim as stated.) -/
theorem claim_C2_amended (d : WakeWordDetector) (text w : List Char)
    (hm : (detect_wake_word d text).method = some Method.fuzzy)
    (hw : (detect_wake_word d text).matched_word = some w) :
    ∃ v, w ∈ tokens (pyStrip (pyLower text)) ∧
      pyLower w ∉ common_words_blacklist ∧ v ∈ d.variations ∧
      4 ≤ w.length ∧ 4 ≤ v.length ∧ w.head? = v.head? ∧
      min_fuzzy_score d.similarity_threshold w ≤ similarityScore w v ∧
      d.similarity_threshold ≤ similarityScore w v ∧
      (detect_wake_word d text).confidence = similarityScore w v := by
  have hne : text ≠ [] := by
    intro h
    rw [h] at hm
    have hdet : detect_wake_word d [] = no_detection := rfl
    rw [hdet] at hm
    exact absurd hm (by decide)
  cases hx : (tokens (pyStrip (pyLower text))).find?
      (fun t => decide (t ∈ d.variations)) with
  | some w0 =>
    have : detect_wake_word d text =
        { detected := true, method := some Method.exact, matched_word := some w0,
          confidence := 1, similarity_score := 1 } := by
      unfold detect_wake_word
      rw [if_neg hne]
      simp only [hx]
    rw [this] at hm
    simp at hm
  | none =>
    by_cases hf : (fuzzy_match d (tokens (pyStrip (pyLower text)))).detected
    · have heq : detect_wake_word d text
          = fuzzy_match d (tokens (pyStrip (pyLower text))) := by
        unfold detect_wake_word
        rw [if_neg hne]
        simp only [hx, hf, if_true]
      rw [heq] at hm hw ⊢
      by_cases hθ : d.similarity_threshold
          ≤ ((tokens (pyStrip (pyLower text))).foldl (fuzzy_word d) (0, none)).1
      · have hrec : fuzzy_match d (tokens (pyStrip (pyLower text))) =
            { detected := true, method := some Method.fuzzy,
              matched_word :=
                ((tokens (pyStrip (pyLower text))).foldl (fuzzy_word d) (0, none)).2,
              confidence :=
                ((tokens (pyStrip (pyLower text))).foldl (fuzzy_word d) (0, none)).1,
              similarity_score :=
                ((tokens (pyStrip (pyLower text))).foldl (fuzzy_word d) (0, none)).1 } := by
          unfold fuzzy_match
          rw [if_pos hθ]
        rw [hrec] at hw ⊢
        simp only at hw ⊢
        rcases fuzzy_fold_inv d (tokens (pyStrip (pyLower text))) with hzero | hgood
        · rw [hzero] at hw
          simp at hw
        · obtain ⟨w1, v, hw1, hb1, hv1, hl1, hl2, hh1, hmin1, hbest⟩ := hgood
        
          rw [hbest] at hw ⊢
          simp only at hw ⊢
          have hww : w1 = w := by injection hw
          subst hww
          refine ⟨v, hw1, hb1, hv1, hl1, hl2, hh1, hmin1, ?_, rfl⟩
          rw [hbest] at hθ
          exact hθ
      · have : fuzzy_match d (tokens (pyStrip (pyLower text))) = no_detection := by
          unfold fuzzy_match
          rw [if_neg hθ]
        rw [this] at hf
        exact absurd hf (by decide)
    · exfalso
      have heq : detect_wake_word d text =
          (let words := tokens (pyStrip (pyLower text));
           let best_phonetic :=
             if d.phonetic_matching then phonetic_match d words else no_detection;
           if best_phonetic.detected then best_phonetic
           else
             let mw := multiword_match d (pyStrip (pyLower text));
             if mw.detected then mw else no_detection) := by
        unfold detect_wake_word
        rw [if_neg hne]
        simp only [hx, hf, Bool.false_eq_true, if_false]
      rw [heq] at hm
      simp only at hm
      by_cases hp : d.phonetic_matching
      · simp only [hp, if_true] at hm
        by_cases hpd : (phonetic_match d (tokens (pyStrip (pyLower text)))).detected
        · rw [if_pos hpd] at hm
          exact phonetic_match_not_fuzzy _ _ hm
        · rw [if_neg hpd] at hm
          by_cases hmd : (multiword_match d (pyStrip (pyLower text))).detected
          · rw [if_pos hmd] at hm
            exact multiword_match_not_fuzzy _ _ hm
          · rw [if_neg hmd] at hm
            exact absurd hm (by decide)
      · simp only [hp, Bool.false_eq_true, if_false] at hm
        have hnd : (no_detection).detected = false := rfl
        rw [if_neg (by rw [hnd]; exact Bool.false_ne_true)] at hm
        by_cases hmd : (multiword_match d (pyStrip (pyLower text))).detected
        · rw [if_pos hmd] at hm
          exact multiword_match_not_fuzzy _ _ hm
        · rw [if_neg hmd] at hm
          exact absurd hm (by decide)

/-- C2 counterexample: with threshold 0 the fuzzy stage fires on the input
"xy" although no token passed any gate, reporting no matched word at
confidence 0; so the claimed gate does not hold as stated for every profile. -/
theorem claim_C2_counterexample :
    (detect_wake_word ⟨[S "aida"], 0, false, []⟩ (S "xy")).method
        = some Method.fuzzy ∧
    (detect_wake_word ⟨[S "aida"], 0, false, []⟩ (S "xy")).matched_word = none ∧
    (detect_wake_word ⟨[S "aida"], 0, false, []⟩ (S "xy")).confidence = 0 := by
  refine ⟨?_, ?_, ?_⟩ <;> decide

set_option maxRecDepth 4000 in
/-- C2 at a concrete fuzzy detection ("aidaa" against variation "aida"). -/
theorem claim_C2_witness :
    ∃ v, S "aidaa" ∈ tokens (pyStrip (pyLower (S "aidaa"))) ∧
      pyLower (S "aidaa") ∉ common_words_blacklist ∧
      v ∈ (⟨[S "aida"], mkRat 1 2, false, []⟩ : WakeWordDetector).variations ∧
      4 ≤ (S "aidaa").length ∧ 4 ≤ v.length ∧ (S "aidaa").head? = v.head? ∧
      min_fuzzy_score (mkRat 1 2) (S "aidaa") ≤ similarityScore (S "aidaa") v ∧
      mkRat 1 2 ≤ similarityScore (S "aidaa") v ∧
      (detect_wake_word ⟨[S "aida"], mkRat 1 2, false, []⟩ (S "aidaa")).confidence
        = similarityScore (S "aidaa") v :=
  claim_C2_amended ⟨[S "aida"], mkRat 1 2, false, []⟩ (S "aidaa") (S "aidaa")
    (by decide) (by decide)

theorem foldl_length_ge (f : List Char → Char → List Char)
    (hf : ∀ res c, res.length ≤ (f res c).length) :
    ∀ (l : List Char) (res : List Char), res.length ≤ (l.foldl f res).length := by
  intro l
  induction l with
  | nil => intro res; simp
  | cons c cs ih =>
    intro res
    simp only [List.foldl_cons]
    exact le_trans (hf res c) (ih (f res c))

/-- Every Soundex code has exactly 4 characters. -/
theorem soundex_length (u : List Char) : (soundex u).length = 4 := by
  unfold soundex
  cases h : pyLower u with
  | nil => rfl
  | cons c rest =>
    have hstep : ∀ (res : List Char) (ch : Char), res.length ≤
        ((fun (res : List Char) (ch : Char) =>
          match soundexMap ch with
          | some code => if res.getLast? = some code then res else res ++ [code]
          | none => res) res ch).length := by
      intro res ch
      dsimp only
      cases hmap : soundexMap ch with
      | none => exact le_refl _
      | some code =>
        dsimp only
        split
        · exact le_refl _
        · simp
    have hres : 1 ≤ (rest.foldl (fun (res : List Char) (ch : Char) =>
        match soundexMap ch with
        | some code => if res.getLast? = some code then res else res ++ [code]
        | none => res) [c.toUpper]).length := by
      have := foldl_length_ge _ hstep rest [c.toUpper]
      simpa using this
    simp only [List.length_take, List.length_append]
    have h3 : (S "000").length = 3 := rfl
    rw [h3]
    omega

/-- Claim C3: phonetic codes are always 4 characters, and when phonetic
matching is enabled, no token is an exact variation, fuzzy did not fire, and
some token of length at least 3 has its Soundex code among the precomputed
codes, detect reports a phonetic match with confidence exactly 0.8, matching
such a token. -/
theorem claim_C3 (d : WakeWordDetector) (text w : List Char)
    (hp : d.phonetic_matching = true)
    (hex : ∀ t ∈ tokens (pyStrip (pyLower text)), t ∉ d.variations)
    (hfz : (fuzzy_match d (tokens (pyStrip (pyLower text)))).detected = false)
    (hw : w ∈ tokens (pyStrip (pyLower text)))
    (hlen : 3 ≤ w.length)
    (hcode : soundex w ∈ d.soundex_codes) :
    (∀ u : List Char, (soundex u).length = 4) ∧
    (detect_wake_word d text).detected = true ∧
    (detect_wake_word d text).method = some Method.phonetic ∧
    (detect_wake_word d text).confidence = mkRat 4 5 ∧
    ∃ w2, (detect_wake_word d text).matched_word = some w2 ∧
      w2 ∈ tokens (pyStrip (pyLower text)) ∧ 3 ≤ w2.length ∧
      soundex w2 ∈ d.soundex_codes := by
  have hne : text ≠ [] := by
    intro h
    rw [h] at hw
    have hnil : tokens (pyStrip (pyLower ([] : List Char))) = [] := rfl
    rw [hnil] at hw
    exact absurd hw (List.not_mem_nil w)
  have hx : (tokens (pyStrip (pyLower text))).find?
      (fun t => decide (t ∈ d.variations)) = none := by
    rw [List.find?_eq_none]
    intro t ht
    simpa using hex t ht
  have hsome : ((tokens (pyStrip (pyLower text))).find?
      (fun t => decide (3 ≤ t.length) && decide (soundex t ∈ d.soundex_codes))).isSome := by
    rw [List.find?_isSome]
    refine ⟨w, hw, ?_⟩
    simp [hlen, hcode]
  obtain ⟨w2, hfind2⟩ := Option.isSome_iff_exists.mp hsome
  have hw2mem := List.mem_of_find?_eq_some hfind2
  have hw2prop := List.find?_some hfind2
  simp only [Bool.and_eq_true, decide_eq_true_eq] at hw2prop
  have hph : phonetic_match d (tokens (pyStrip (pyLower text))) =
      { detected := true, method := some Method.phonetic, matched_word := some w2,
        confidence := mkRat 4 5, similarity_score := mkRat 4 5 } := by
    unfold phonetic_match
    rw [hfind2]
  have heq : detect_wake_word d text =
      phonetic_match d (tokens (pyStrip (pyLower text))) := by
    unfold detect_wake_word
    rw [if_neg hne]
    simp only [hx, hfz, Bool.false_eq_true, if_false, hp, if_true, hph]
  rw [heq, hph]
  exact ⟨soundex_length, rfl, rfl, rfl, w2, rfl, hw2mem, hw2prop.1, hw2prop.2⟩

set_option maxRecDepth 4000 in
/-- C3 at a concrete detector: "ada" matches the precomputed code A300 of
the variation "aida". -/
theorem claim_C3_witness :
    (detect_wake_word ⟨[S "aida"], mkRat 3 5, true, [S "A300"]⟩ (S "ada")).method
        = some Method.phonetic ∧
    (detect_wake_word ⟨[S "aida"], mkRat 3 5, true, [S "A300"]⟩ (S "ada")).confidence
        = mkRat 4 5 := by
  have h := claim_C3 ⟨[S "aida"], mkRat 3 5, true, [S "A300"]⟩ (S "ada") (S "ada")
    rfl (by decide) (by decide) (by decide) (by decide) (by decide)
  exact ⟨h.2.2.1, h.2.2.2.1⟩

theorem commonPrefixLen_self (a : List Char) : commonPrefixLen a a = a.length := by
  induction a with
  | nil => rfl
  | cons c cs ih => simp [commonPrefixLen, ih]

theorem commonPrefixLen_le_left : ∀ (a b : List Char), commonPrefixLen a b ≤ a.length := by
  intro a
  induction a with
  | nil => intro b; cases b <;> simp [commonPrefixLen]
  | cons c cs ih =>
    intro b
    cases b with
    | nil => simp [commonPrefixLen]
    | cons e es =>
      simp only [commonPrefixLen, List.length_cons]
      split
      · have := ih es
        omega
      · omega

theorem foldl_fixed {α β : Type} (f : α → β → α) (v : α) :
    ∀ (l : List β), (∀ x ∈ l, f v x = v) → l.foldl f v = v := by
  intro l
  induction l with
  | nil => intro _; rfl
  | cons x xs ih =>
    intro h
    simp only [List.foldl_cons, h x (List.mem_cons_self _ _)]
    exact ih (fun y hy => h y (List.mem_cons_of_mem _ hy))

theorem foldl_head_fixed {α β : Type} (F : α → β → α) (init : α) (x0 : β)
    (l : List β) (v : α) (h0 : F init x0 = v) (hfix : ∀ x ∈ l, F v x = v) :
    (x0 :: l).foldl F init = v := by
  simp only [List.foldl_cons, h0]
  exact foldl_fixed F v l hfix

theorem drop_commonPrefixLen_le (a : List Char) (i j : Nat) :
    commonPrefixLen (a.drop i) (a.drop j) ≤ a.length := by
  refine le_trans (commonPrefixLen_le_left _ _) ?_
  rw [List.length_drop]
  omega

theorem longestMatch_self (a : List Char) : longestMatch a a = (0, 0, a.length) := by
  unfold longestMatch
  rw [List.range_succ_eq_map]
  apply foldl_head_fixed
  · dsimp only
    apply foldl_head_fixed
    · dsimp only
      simp only [List.drop_zero, commonPrefixLen_self]
      by_cases h0 : (0 : Nat) < a.length
      · rw [if_pos h0]
      · rw [if_neg h0]
        have hz : a.length = 0 := by omega
        rw [hz]
    · intro j hj
      dsimp only
      rw [if_neg]
      exact not_lt.mpr (drop_commonPrefixLen_le a 0 j)
  · intro i hi
    dsimp only
    apply foldl_fixed
    intro j hj
    dsimp only
    rw [if_neg]
    exact not_lt.mpr (drop_commonPrefixLen_le a i j)

theorem matchSum_nil (fuel : Nat) : matchSum fuel [] [] = 0 := by
  cases fuel with
  | zero => rfl
  | succ f => rfl

theorem matchSum_self (a : List Char) : ∀ fuel, 1 ≤ fuel → matchSum fuel a a = a.length := by
  intro fuel hf
  cases fuel with
  | zero => omega
  | succ f =>
    show matchSum (f + 1) a a = a.length
    unfold matchSum
    rw [longestMatch_self]
    dsimp only
    by_cases h0 : a.length = 0
    · rw [if_pos h0, h0]
    · rw [if_neg h0]
      simp only [List.take_zero, Nat.zero_add, List.drop_length, matchSum_nil]
      omega

/-- The ratio of a string against itself is 1. -/
theorem similarityScore_self (a : List Char) : similarityScore a a = 1 := by
  unfold similarityScore
  by_cases h : a.length + a.length = 0
  · rw [if_pos h]
  · rw [if_neg h]
    rw [matchSum_self a (a.length + a.length) (by omega)]
    rw [Rat.mkRat_eq_div]
    have hne : ((a.length + a.length : Nat) : ℚ) ≠ 0 := by
      exact_mod_cast h
    have hnum : ((2 * (a.length : Int) : Int) : ℚ) = ((a.length + a.length : Nat) : ℚ) := by
      push_cast
      ring
    rw [hnum, div_self hne]

theorem find?_prefix_first {α : Type} (p : α → Bool) (v : α) (hv : p v = true) :
    ∀ (pre post : List α), (∀ x ∈ pre, p x = false) →
      (pre ++ v :: post).find? p = some v := by
  intro pre
  induction pre with
  | nil =>
    intro post _
    simp only [List.nil_append]
    exact List.find?_cons_of_pos _ hv
  | cons x xs ih =>
    intro post h
    simp only [List.cons_append]
    rw [List.find?_cons_of_neg _ (by simp [h x (List.mem_cons_self _ _)])]
    exact ih post (fun y hy => h y (List.mem_cons_of_mem _ hy))

/-- Claim C10 (amended): exact matching compares single tokens, so a
multi-word variation is never returned by the exact stage; when the input is
exactly a normalized multi-word variation v (lowercase, no punctuation,
single spaces), none of its tokens is a variation, fuzzy and phonetic do not
fire, the threshold is at most 1, and no multi-word variation listed before v
reaches the threshold against v, detect returns method=multiword with
matched phrase v and confidence 1. (Without the last condition an earlier
multi-word variation at or above the threshold is returned instead, which
refutes the claim as stated.) -/
theorem claim_C10_amended (d : WakeWordDetector) (pre post : List (List Char))
    (v : List Char)
    (hvars : d.variations = pre ++ v :: post)
    (hsp : ' ' ∈ v)
    (hnorm : pyStrip (pyLower v) = v)
    (hclean : cleanText v = v)
    (htok : ∀ t ∈ tokens v, t ∉ d.variations)
    (hfz : (fuzzy_match d (tokens v)).detected = false)
    (hph : d.phonetic_matching = true → (phonetic_match d (tokens v)).detected = false)
    (hθ : d.similarity_threshold ≤ 1)
    (hpre : ∀ w ∈ pre, ¬(' ' ∈ w ∧ d.similarity_threshold ≤ similarityScore v w)) :
    detect_wake_word d v =
      { detected := true, method := some Method.multiword, matched_word := some v,
        confidence := 1, similarity_score := 1 } := by
  have hne : v ≠ [] := by
    intro h
    rw [h] at hsp
    exact absurd hsp (List.not_mem_nil _)
  have hx : (tokens v).find? (fun t => decide (t ∈ d.variations)) = none := by
    rw [List.find?_eq_none]
    intro t ht
    simpa using htok t ht
  have hscore : similarityScore v v = 1 := similarityScore_self v
  have hfind : d.variations.find? (fun u => decide (' ' ∈ u)
      && decide (d.similarity_threshold ≤ similarityScore (cleanText v) u)) = some v := by
    rw [hvars]
    apply find?_prefix_first
    · rw [hclean]
      simp only [Bool.and_eq_true, decide_eq_true_eq]
      exact ⟨hsp, hscore ▸ hθ⟩
    · intro x hx'
      have hnx := hpre x hx'
      rw [hclean]
      by_cases hx1 : ' ' ∈ x
      · have hx2 : ¬ d.similarity_threshold ≤ similarityScore v x :=
          fun hc => hnx ⟨hx1, hc⟩
        simp [hx2]
      · simp [hx1]
  have hmw : multiword_match d v =
      { detected := true, method := some Method.multiword, matched_word := some v,
        confidence := similarityScore (cleanText v) v,
        similarity_score := similarityScore (cleanText v) v } := by
    unfold multiword_match
    dsimp only
    rw [hfind]
  have hmw1 : multiword_match d v =
      { detected := true, method := some Method.multiword, matched_word := some v,
        confidence := 1, similarity_score := 1 } := by
    rw [hmw, hclean, hscore]
  unfold detect_wake_word
  rw [if_neg hne]
  simp only [hnorm, hx, hfz, Bool.false_eq_true, if_false]
  cases hp : d.phonetic_matching with
  | false =>
    simp only [Bool.false_eq_true, if_false]
    have hnd : no_detection.detected = false := rfl
    simp only [hnd, Bool.false_eq_true, if_false, hmw1, if_true]
  | true =>
    simp only [if_true]
    have hphd := hph hp
    simp only [hphd, Bool.false_eq_true, if_false, hmw1, if_true]

/-- C10 counterexample: the input "a b" is itself a variation, its tokens are
not variations, neither fuzzy nor phonetic fires, yet detect returns the
earlier multi-word variation "a c" at ratio 2/3, not "a b" at confidence 1. -/
theorem claim_C10_counterexample :
    detect_wake_word ⟨[S "a c", S "a b"], mkRat 3 5, false, []⟩ (S "a b") =
      { detected := true, method := some Method.multiword,
        matched_word := some (S "a c"), confidence := mkRat 2 3,
        similarity_score := mkRat 2 3 } := by
  decide

set_option maxRecDepth 4000 in
/-- C10 at a concrete detector where v = "a b" is the only multi-word
variation at or above the threshold. -/
theorem claim_C10_witness :
    detect_wake_word ⟨[S "aida", S "a b"], mkRat 3 5, false, []⟩ (S "a b") =
      { detected := true, method := some Method.multiword,
        matched_word := some (S "a b"), confidence := 1, similarity_score := 1 } :=
  claim_C10_amended ⟨[S "aida", S "a b"], mkRat 3 5, false, []⟩ [S "aida"] []
    (S "a b") rfl (by decide) (by decide) (by decide) (by decide) (by decide)
    (fun h => absurd h (by decide)) (by decide) (by decide)
